import Mathlib

/-!
Shallow embedding of the multisig program (src/programs/multisig/src/lib.rs).

Identities (Solana Pubkeys) are abstracted as Nat: the program only ever
compares them for equality.  The Anchor account context machinery (PDA seed
derivation, signer checks, rent, space) is the platform's concern; each
instruction handler is embedded as a pure function over the account state it
reads and mutates.  A handler that mutates an account through a mutable
reference is embedded as a function returning the result together with the
state of that account as the platform persists it: Anchor serializes account
writes only when the handler returns Ok, and an Err return aborts the whole
instruction and reverts every write, so on every error path the returned
state is the input state.  The cross-program invocation performed by
execute_transaction is an external collaborator: its outcome is a Boolean
parameter, and the instruction handed to it is returned explicitly so that
theorems can speak about what was dispatched.  The optional system-nonce
advance in create_transaction (nonce_account = Some) is an external
collaborator invoked before any state mutation; the embedding models the
nonce_account = None path, which is the engine's own logic.  Events
(emit!) are observational and not modelled.
-/

deriving instance DecidableEq for Except

/-- MAX_OWNERS from lib.rs line 11. -/
def MAX_OWNERS : Nat := 10

/-- MAX_STORED_NONCES from lib.rs line 12. -/
def MAX_STORED_NONCES : Nat := 100

/-- MAX_INSTRUCTION_ACCOUNTS from lib.rs line 13. -/
def MAX_INSTRUCTION_ACCOUNTS : Nat := 10

/-- MAX_INSTRUCTION_DATA_SIZE from lib.rs line 14. -/
def MAX_INSTRUCTION_DATA_SIZE : Nat := 1024

/-- The program's error codes (lib.rs enum ErrorCode). -/
inductive ErrorCode where
  | InvalidThreshold
  | DuplicateOwners
  | NoOwners
  | NotAnOwner
  | NotOwner
  | AlreadyApproved
  | InvalidNonceAuthority
  | NonceAlreadyUsed
  | AlreadyExecuted
  | NotEnoughApprovals
  | TooManyAccounts
  | InstructionDataTooLarge
  | AlreadyAnOwner
  | TooManyOwners
deriving DecidableEq, Repr

/-- Errors surfaced by execute_transaction: either one of the program's own
error codes, or failure of the dispatched cross-program invocation
(the invoke_signed call), which is propagated by the question-mark operator. -/
inductive TxError where
  | program : ErrorCode → TxError
  | dispatchFailed
deriving DecidableEq, Repr

/-- The Multisig account (lib.rs struct Multisig).  threshold is a u8;
multisig_id a u64; pubkeys are Nat. -/
structure Multisig where
  owners : List Nat
  threshold : Nat
  creator : Nat
  multisig_id : Nat
  used_nonces : List Nat
deriving DecidableEq, Repr

/-- One entry of a stored instruction's account list
(lib.rs struct TransactionAccount). -/
structure TransactionAccount where
  pubkey : Nat
  is_signer : Bool
  is_writable : Bool
deriving DecidableEq, Repr

/-- The Transaction account (lib.rs struct Transaction).  The multisig field
stores the multisig account's address; since that address is a PDA derived
deterministically from multisig_id, the embedding uses multisig_id as the
key. -/
structure Transaction where
  multisig : Nat
  proposer : Nat
  approvals : List Nat
  did_execute : Bool
  nonce : Nat
  program_id : Nat
  accounts : List TransactionAccount
  data : List Nat
deriving DecidableEq, Repr

/-- An AccountMeta of the instruction built for dispatch
(anchor_lang::solana_program::instruction::AccountMeta). -/
structure AccountMeta where
  pubkey : Nat
  is_signer : Bool
  is_writable : Bool
deriving DecidableEq, Repr

/-- The instruction handed to invoke_signed by execute_transaction
(anchor_lang::solana_program::instruction::Instruction). -/
structure Instruction where
  program_id : Nat
  accounts : List AccountMeta
  data : List Nat
deriving DecidableEq, Repr

/-- The per-account mapping in execute_transaction lines 214-220. -/
def toAccountMeta (acc : TransactionAccount) : AccountMeta :=
  { pubkey := acc.pubkey, is_signer := acc.is_signer, is_writable := acc.is_writable }

/-- The duplicate-owner detection loop of initialize (lib.rs lines 39-44):
inserting each owner into a hash set and failing on the first repeat finds a
duplicate exactly when some owner occurs again later in the list. -/
def hasDuplicate : List Nat → Bool
  | [] => false
  | x :: xs => xs.contains x || hasDuplicate xs

/-- initialize (lib.rs lines 20-47).  The handler writes the fields and then
validates; on an error return Anchor aborts the whole instruction and the
freshly initialized account is not persisted, so the embedding returns the
record only on success.  The comparison on line 30 casts owners.len() to u8,
hence the modulus.  There is no check that threshold is nonzero, and no check
against MAX_OWNERS.  (The source handler's name is a Lean keyword, hence the
name initMultisig here.) -/
def initMultisig (multisig_id : Nat) (owners : List Nat) (threshold : Nat)
    (creator : Nat) : Except ErrorCode Multisig :=
  let m : Multisig :=
    { owners := owners, threshold := threshold, creator := creator,
      multisig_id := multisig_id, used_nonces := [] }
  if owners.length % 256 < threshold then .error .InvalidThreshold
  else if owners.isEmpty then .error .NoOwners
  else if hasDuplicate owners then .error .DuplicateOwners
  else .ok m

/-- create_transaction (lib.rs lines 49-154), nonce_account = None path.
All four require checks run before any account is mutated, so an error
return leaves both accounts untouched; the embedding therefore returns the
new (multisig, transaction) pair only on success.  On success the used-nonce
window drops its oldest entry when already at MAX_STORED_NONCES capacity
(remove(0), lines 140-142) and then appends the new nonce. -/
def create_transaction (multisig : Multisig) (proposer : Nat) (nonce : Nat)
    (program_id : Nat) (accounts : List TransactionAccount) (data : List Nat) :
    Except ErrorCode (Multisig × Transaction) :=
  if (multisig.owners.contains proposer) = false then .error .NotAnOwner
  else if multisig.used_nonces.contains nonce then .error .NonceAlreadyUsed
  else if MAX_INSTRUCTION_ACCOUNTS < accounts.length then .error .TooManyAccounts
  else if MAX_INSTRUCTION_DATA_SIZE < data.length then .error .InstructionDataTooLarge
  else
    let t : Transaction :=
      { multisig := multisig.multisig_id, proposer := proposer, approvals := [],
        did_execute := false, nonce := nonce, program_id := program_id,
        accounts := accounts, data := data }
    let trimmed :=
      if MAX_STORED_NONCES ≤ multisig.used_nonces.length
      then multisig.used_nonces.drop 1 else multisig.used_nonces
    .ok ({ multisig with used_nonces := trimmed ++ [nonce] }, t)

/-- approve_transaction (lib.rs lines 156-186).  The multisig account is
borrowed immutably (line 158), so approve cannot change the registry entry;
the transaction account is mutated in place, so the embedding returns the
result together with the transaction's final state.  Checks run in source
order: NotOwner (line 162), AlreadyApproved (line 167), AlreadyExecuted
(line 172); the single mutation (push, line 175) happens after all checks. -/
def approve_transaction (multisig : Multisig) (owner : Nat) (t : Transaction) :
    Except ErrorCode Unit × Transaction :=
  if (multisig.owners.contains owner) = false then (.error .NotOwner, t)
  else if t.approvals.contains owner then (.error .AlreadyApproved, t)
  else if t.did_execute then (.error .AlreadyExecuted, t)
  else (.ok (), { t with approvals := t.approvals ++ [owner] })

/-- execute_transaction (lib.rs lines 188-242).  The executor account is a
plain signer, used only in the emitted event; no ownership check is made on
it.  After the two require checks the handler sets did_execute in memory,
builds the instruction from the stored program_id/accounts/data, and hands
it to invoke_signed; the Boolean dispatchOk is the outcome of that external
call.  On dispatch failure the question-mark operator propagates the Err,
the Anchor instruction aborts, and the platform reverts every account
write — including the did_execute = true assignment of line 202 — so the
persisted transaction is the input state unchanged (the same rollback that
keeps initMultisig and create_transaction mutation-free on their error
paths).  On success the write sticks and data and accounts are cleared.
The third component records the instruction handed to the dispatcher
(none when the dispatch was never attempted). -/
def execute_transaction (multisig : Multisig) (executor : Nat)
    (t : Transaction) (dispatchOk : Bool) :
    Except TxError Unit × Transaction × Option Instruction :=
  if t.did_execute then (.error (.program .AlreadyExecuted), t, none)
  else if t.approvals.length < multisig.threshold then
    (.error (.program .NotEnoughApprovals), t, none)
  else
    let t1 := { t with did_execute := true }
    let instr : Instruction :=
      { program_id := t.program_id, accounts := t.accounts.map toAccountMeta,
        data := t.data }
    if dispatchOk then
      (.ok (), { t1 with data := [], accounts := [] }, some instr)
    else
      (.error .dispatchFailed, t, some instr)

/-- A sequence of approve_transaction calls by the given signers, each call
operating on the transaction state left by the previous one (whether that
call succeeded or failed). -/
def approveMany (multisig : Multisig) (signers : List Nat) (t : Transaction) :
    Transaction :=
  signers.foldl (fun s o => (approve_transaction multisig o s).2) t

/-- A sequence of approve_transaction calls that must all succeed: the first
failing call aborts the sequence with its error. -/
def approveSeq (multisig : Multisig) (signers : List Nat) (t : Transaction) :
    Except ErrorCode Transaction :=
  match signers with
  | [] => .ok t
  | o :: rest =>
    match approve_transaction multisig o t with
    | (.ok _, t1) => approveSeq multisig rest t1
    | (.error e, _) => .error e

/-! ## Basic lemmas about the handlers -/

/-- Unfolding approveMany one signer at a time. -/
theorem approveMany_cons (m : Multisig) (o : Nat) (os : List Nat)
    (t : Transaction) :
    approveMany m (o :: os) t = approveMany m os (approve_transaction m o t).2 :=
  rfl

/-- A single approve call leaves every transaction field except approvals
unchanged, whatever its outcome. -/
theorem approve_frame (m : Multisig) (o : Nat) (t : Transaction) :
    (approve_transaction m o t).2.multisig = t.multisig ∧
    (approve_transaction m o t).2.proposer = t.proposer ∧
    (approve_transaction m o t).2.did_execute = t.did_execute ∧
    (approve_transaction m o t).2.nonce = t.nonce ∧
    (approve_transaction m o t).2.program_id = t.program_id ∧
    (approve_transaction m o t).2.accounts = t.accounts ∧
    (approve_transaction m o t).2.data = t.data := by
  unfold approve_transaction
  split_ifs <;> simp

/-- Any sequence of approve calls leaves every transaction field except
approvals unchanged. -/
theorem approveMany_frame (m : Multisig) (os : List Nat) (t : Transaction) :
    (approveMany m os t).multisig = t.multisig ∧
    (approveMany m os t).proposer = t.proposer ∧
    (approveMany m os t).did_execute = t.did_execute ∧
    (approveMany m os t).nonce = t.nonce ∧
    (approveMany m os t).program_id = t.program_id ∧
    (approveMany m os t).accounts = t.accounts ∧
    (approveMany m os t).data = t.data := by
  induction os generalizing t with
  | nil => exact ⟨rfl, rfl, rfl, rfl, rfl, rfl, rfl⟩
  | cons o rest ih =>
    rw [approveMany_cons]
    obtain ⟨h1, h2, h3, h4, h5, h6, h7⟩ := approve_frame m o t
    obtain ⟨g1, g2, g3, g4, g5, g6, g7⟩ := ih (approve_transaction m o t).2
    exact ⟨g1.trans h1, g2.trans h2, g3.trans h3, g4.trans h4,
      g5.trans h5, g6.trans h6, g7.trans h7⟩

/-- Shape of a successful create_transaction: the proposal starts with empty
approvals and did_execute = false and stores the given instruction; the
registry's nonce window is trimmed at capacity and gets the nonce appended. -/
theorem create_ok_shape (m m2 : Multisig) (p nonce pid : Nat)
    (accs : List TransactionAccount) (dat : List Nat) (t : Transaction)
    (h : create_transaction m p nonce pid accs dat = .ok (m2, t)) :
    t = { multisig := m.multisig_id, proposer := p, approvals := [],
          did_execute := false, nonce := nonce, program_id := pid,
          accounts := accs, data := dat } ∧
    m2 = { m with used_nonces :=
        (if MAX_STORED_NONCES ≤ m.used_nonces.length
         then m.used_nonces.drop 1 else m.used_nonces) ++ [nonce] } := by
  unfold create_transaction at h
  split_ifs at h with h1 h2 h3 h4 h5
  · simp only [Except.ok.injEq, Prod.mk.injEq] at h
    refine ⟨h.2.symm, ?_⟩
    rw [if_pos h5]
    exact h.1.symm
  · simp only [Except.ok.injEq, Prod.mk.injEq] at h
    refine ⟨h.2.symm, ?_⟩
    rw [if_neg h5]
    exact h.1.symm

/-- Shape of a successful single approve: the signer is an owner, was not yet
in the approvals, the proposal was not executed, and the only change is the
appended approval. -/
theorem approve_ok_shape (m : Multisig) (o : Nat) (t : Transaction)
    (h : (approve_transaction m o t).1 = .ok ()) :
    o ∈ m.owners ∧ o ∉ t.approvals ∧ t.did_execute = false ∧
    (approve_transaction m o t).2 =
      { t with approvals := t.approvals ++ [o] } := by
  unfold approve_transaction at h ⊢
  split_ifs at h with h1 h2 h3 <;> simp_all

/-- A successful run of approveSeq by distinct owners none of whom has yet
approved appends exactly those owners to the approvals list. -/
theorem approveSeq_ok (m : Multisig) (os : List Nat) (t : Transaction)
    (hnodup : os.Nodup) (hos : ∀ x ∈ os, x ∈ m.owners)
    (hdisj : ∀ x ∈ os, x ∉ t.approvals) (hnx : t.did_execute = false) :
    ∃ t2, approveSeq m os t = .ok t2 ∧ t2.approvals = t.approvals ++ os ∧
      t2.did_execute = false := by
  induction os generalizing t with
  | nil =>
    refine ⟨t, rfl, ?_, hnx⟩
    simp
  | cons o rest ih =>
    have ho : o ∈ m.owners := hos o (by simp)
    have hna : o ∉ t.approvals := hdisj o (by simp)
    have hstep : approve_transaction m o t =
        (.ok (), { t with approvals := t.approvals ++ [o] }) := by
      unfold approve_transaction
      rw [if_neg (by simpa using ho), if_neg (by simpa using hna),
        if_neg (by simp [hnx])]
    obtain ⟨t2, hrun, happ, hx⟩ := ih { t with approvals := t.approvals ++ [o] }
      (List.nodup_cons.mp hnodup).2
      (fun x hx => hos x (List.mem_cons_of_mem o hx))
      (fun x hx => by
        simp only [List.mem_append, List.mem_singleton]
        rintro (hin | rfl)
        · exact hdisj x (List.mem_cons_of_mem o hx) hin
        · exact (List.nodup_cons.mp hnodup).1 hx)
      hnx
    refine ⟨t2, ?_, ?_, hx⟩
    · show approveSeq m (o :: rest) t = .ok t2
      unfold approveSeq
      rw [hstep]
      exact hrun
    · rw [happ, List.append_assoc, List.singleton_append]

/-- execute_transaction written as a single if-cascade (the let bindings of
the definition are inlined); definitionally equal to the definition. -/
theorem exec_shape (m : Multisig) (e : Nat) (t : Transaction) (d : Bool) :
    execute_transaction m e t d =
      if t.did_execute then (.error (.program .AlreadyExecuted), t, none)
      else if t.approvals.length < m.threshold then
        (.error (.program .NotEnoughApprovals), t, none)
      else if d then
        (.ok (), { t with did_execute := true, accounts := [], data := [] },
          some { program_id := t.program_id,
                 accounts := t.accounts.map toAccountMeta, data := t.data })
      else
        (.error .dispatchFailed, t,
          some { program_id := t.program_id,
                 accounts := t.accounts.map toAccountMeta, data := t.data }) :=
  rfl

/-- An already-executed proposal is rejected by execute with AlreadyExecuted,
whoever calls and whatever the dispatcher would do. -/
theorem exec_of_executed (m : Multisig) (e : Nat) (t : Transaction) (d : Bool)
    (hx : t.did_execute = true) :
    execute_transaction m e t d = (.error (.program .AlreadyExecuted), t, none) := by
  rw [exec_shape, if_pos hx]

/-- A successful execute leaves the stored transaction marked executed. -/
theorem exec_ok_executed (m : Multisig) (e : Nat) (t : Transaction) (d : Bool)
    (h : (execute_transaction m e t d).1 = .ok ()) :
    (execute_transaction m e t d).2.1.did_execute = true := by
  rw [exec_shape] at h ⊢
  split_ifs at h ⊢ <;> simp_all

/-! ## The claims -/

/-- C2: the spec says initialize with threshold = 0 always fails with
InvalidThreshold.  The code checks only the upper bound threshold ≤ number of
owners: with one owner and threshold 0 the handler succeeds and creates the
registry entry, so the lower-bound check the spec (and the declared
InvalidThreshold error) call for is missing from the code.  The upper-bound
half of the claim does hold, as the second conjunct shows. -/
theorem C2_init_threshold_zero_succeeds :
    initMultisig 0 [1] 0 2 =
      .ok { owners := [1], threshold := 0, creator := 2, multisig_id := 0,
            used_nonces := [] } ∧
    initMultisig 0 [1] 2 2 = .error .InvalidThreshold := by
  decide

/-- C3: the spec says initialize with 11 or more owners always fails with
TooManyOwners.  The code contains no owner-count check at all (the
TooManyOwners error is declared but never raised): with 11 distinct owners
and threshold 1 the handler succeeds.  The second half of the claim (exactly
MAX_OWNERS = 10 distinct owners succeed) does hold. -/
theorem C3_eleven_owners_accepted :
    initMultisig 0 [1, 2, 3, 4, 5, 6, 7, 8, 9, 10, 11] 1 99 =
      .ok { owners := [1, 2, 3, 4, 5, 6, 7, 8, 9, 10, 11], threshold := 1,
            creator := 99, multisig_id := 0, used_nonces := [] } ∧
    MAX_OWNERS < ([1, 2, 3, 4, 5, 6, 7, 8, 9, 10, 11] : List Nat).length ∧
    initMultisig 0 [1, 2, 3, 4, 5, 6, 7, 8, 9, 10] 1 99 =
      .ok { owners := [1, 2, 3, 4, 5, 6, 7, 8, 9, 10], threshold := 1,
            creator := 99, multisig_id := 0, used_nonces := [] } := by
  decide

/-- C4 counterexample: the claim says approve on an executed proposal fails
with AlreadyExecuted even when the approver already sits in the approvals
list.  In the code the AlreadyApproved check (line 167) runs before the
AlreadyExecuted check (line 172): an owner who already approved an executed
proposal gets AlreadyApproved, not AlreadyExecuted. -/
theorem C4_counterexample :
    (1 : Nat) ∈ (Multisig.mk [1] 1 0 0 []).owners ∧
    (Transaction.mk 0 1 [1] true 0 0 [] []).did_execute = true ∧
    (approve_transaction (Multisig.mk [1] 1 0 0 [])
        1 (Transaction.mk 0 1 [1] true 0 0 [] [])).1 =
      .error .AlreadyApproved ∧
    (approve_transaction (Multisig.mk [1] 1 0 0 [])
        1 (Transaction.mk 0 1 [1] true 0 0 [] [])).1 ≠
      .error .AlreadyExecuted := by
  decide

/-- C4 (amended): approve by a current owner on an already-executed proposal
fails with AlreadyExecuted when the owner is not already in the approvals
list, and with AlreadyApproved when it is: the not-already-approved
precondition is checked before the not-already-executed one. -/
theorem C4_approve_on_executed (m : Multisig) (o : Nat) (t : Transaction)
    (ho : o ∈ m.owners) (hx : t.did_execute = true) :
    (approve_transaction m o t).1 =
      .error (if o ∈ t.approvals then ErrorCode.AlreadyApproved
              else ErrorCode.AlreadyExecuted) := by
  unfold approve_transaction
  split_ifs with h1 h2 h3 <;> simp_all

/-- Witness for C4_approve_on_executed: owner 1 of a one-owner registry, an
executed proposal already carrying 1's approval. -/
theorem C4_witness :
    (approve_transaction (Multisig.mk [1] 1 0 0 [])
        1 (Transaction.mk 0 1 [1] true 0 0 [] [])).1 =
      .error (if (1 : Nat) ∈ [1] then ErrorCode.AlreadyApproved
              else ErrorCode.AlreadyExecuted) :=
  C4_approve_on_executed (Multisig.mk [1] 1 0 0 [])
    1 (Transaction.mk 0 1 [1] true 0 0 [] []) (by decide) (by decide)

/-- C10: frame condition of approve.  Whatever the outcome, approve changes
only the approvals list of the proposal: every other transaction field keeps
its value, the approvals list is either untouched or gets exactly the caller
appended, and any non-ok outcome leaves the whole transaction untouched.
The registry entry cannot change at all: approve borrows the multisig
account immutably, which the embedding reflects by not returning a
multisig. -/
theorem C10_approve_frame (m : Multisig) (o : Nat) (t : Transaction) :
    (approve_transaction m o t).2.multisig = t.multisig ∧
    (approve_transaction m o t).2.proposer = t.proposer ∧
    (approve_transaction m o t).2.did_execute = t.did_execute ∧
    (approve_transaction m o t).2.nonce = t.nonce ∧
    (approve_transaction m o t).2.program_id = t.program_id ∧
    (approve_transaction m o t).2.accounts = t.accounts ∧
    (approve_transaction m o t).2.data = t.data ∧
    ((approve_transaction m o t).2.approvals = t.approvals ∨
     (approve_transaction m o t).2.approvals = t.approvals ++ [o]) ∧
    ((approve_transaction m o t).1 = .ok () ∨ (approve_transaction m o t).2 = t) := by
  unfold approve_transaction
  split_ifs <;> simp

/-- C6: for a registry whose nonce window respects its capacity bound, a
propose call by an owner with a nonce already in the window fails with
NonceAlreadyUsed (the check precedes every mutation, so nothing changes);
a successful propose creates the proposal with empty approvals and
did_execute = false, appends the nonce to the window after evicting the
oldest entry when the window is at MAX_STORED_NONCES capacity, and the
window length stays at most MAX_STORED_NONCES = 100. -/
theorem C6_propose_nonce_window (m : Multisig) (p nonce pid : Nat)
    (accs : List TransactionAccount) (dat : List Nat)
    (hcap : m.used_nonces.length ≤ MAX_STORED_NONCES) :
    (p ∈ m.owners → nonce ∈ m.used_nonces →
       create_transaction m p nonce pid accs dat = .error .NonceAlreadyUsed) ∧
    (∀ m2 t, create_transaction m p nonce pid accs dat = .ok (m2, t) →
       t.approvals = [] ∧ t.did_execute = false ∧
       m2.used_nonces =
         (if MAX_STORED_NONCES ≤ m.used_nonces.length
          then m.used_nonces.drop 1 else m.used_nonces) ++ [nonce] ∧
       m2.used_nonces.length ≤ MAX_STORED_NONCES) := by
  constructor
  · intro hp hn
    unfold create_transaction
    rw [if_neg (by simp [hp]), if_pos (by simpa using hn)]
  · intro m2 t h
    obtain ⟨ht, hm⟩ := create_ok_shape m m2 p nonce pid accs dat t h
    subst ht
    subst hm
    refine ⟨rfl, rfl, rfl, ?_⟩
    show ((if MAX_STORED_NONCES ≤ m.used_nonces.length
      then m.used_nonces.drop 1 else m.used_nonces) ++ [nonce]).length ≤ MAX_STORED_NONCES
    by_cases hfull : MAX_STORED_NONCES ≤ m.used_nonces.length
    · rw [if_pos hfull]
      simp only [List.length_append, List.length_drop, List.length_singleton,
        MAX_STORED_NONCES] at hcap hfull ⊢
      omega
    · rw [if_neg hfull]
      simp only [List.length_append, List.length_singleton,
        MAX_STORED_NONCES] at hcap hfull ⊢
      omega

/-- Witness for C6_propose_nonce_window: a one-owner registry whose window
already holds nonce 7 rejects a second proposal with nonce 7. -/
theorem C6_witness :
    create_transaction (Multisig.mk [1] 1 0 0 [7]) 1 7 9 [] [] =
      .error .NonceAlreadyUsed ∧
    (Multisig.mk [1] 1 0 0 [7]).used_nonces.length ≤ MAX_STORED_NONCES := by
  refine ⟨?_, by decide⟩
  exact (C6_propose_nonce_window (Multisig.mk [1] 1 0 0 [7]) 1 7 9 [] []
    (by decide)).1 (by decide) (by decide)

/-- C7: approve is idempotent-safe.  A first approve by an owner who has not
yet approved a not-executed proposal succeeds, and an immediate second
approve by the same owner fails with AlreadyApproved; and starting from a
fresh proposal, a run of approvals by N distinct owners all succeeds and
leaves exactly N approvals. -/
theorem C7_approve_idempotent_safe (m : Multisig) (o : Nat) (os : List Nat)
    (t : Transaction) (ho : o ∈ m.owners) (hos : ∀ x ∈ os, x ∈ m.owners)
    (hnodup : os.Nodup) (happ : t.approvals = []) (hnx : t.did_execute = false) :
    ((approve_transaction m o t).1 = .ok () ∧
     (approve_transaction m o (approve_transaction m o t).2).1 =
       .error .AlreadyApproved) ∧
    (∃ t2, approveSeq m os t = .ok t2 ∧ t2.approvals.length = os.length) := by
  constructor
  · have h1 : approve_transaction m o t =
        (.ok (), { t with approvals := t.approvals ++ [o] }) := by
      unfold approve_transaction
      rw [if_neg (by simp [ho]), if_neg (by simp [happ]), if_neg (by simp [hnx])]
    constructor
    · rw [h1]
    · rw [h1]
      unfold approve_transaction
      rw [if_neg (by simp [ho]), if_pos (by simp)]
  · obtain ⟨t2, hrun, ha, _⟩ := approveSeq_ok m os t hnodup hos
      (by simp [happ]) hnx
    exact ⟨t2, hrun, by simp [ha, happ]⟩

/-- Witness for C7_approve_idempotent_safe: owners 1, 2, 3 with threshold 2;
owner 1 approves twice; owners 1 and 2 approve in sequence. -/
theorem C7_witness :
    ((approve_transaction (Multisig.mk [1, 2, 3] 2 7 5 [])
        1 (Transaction.mk 5 1 [] false 0 9 [] [])).1 = .ok () ∧
     (approve_transaction (Multisig.mk [1, 2, 3] 2 7 5 []) 1
        (approve_transaction (Multisig.mk [1, 2, 3] 2 7 5 [])
          1 (Transaction.mk 5 1 [] false 0 9 [] [])).2).1 =
       .error .AlreadyApproved) ∧
    (∃ t2, approveSeq (Multisig.mk [1, 2, 3] 2 7 5 []) [1, 2]
        (Transaction.mk 5 1 [] false 0 9 [] []) = .ok t2 ∧
      t2.approvals.length = [1, 2].length) :=
  C7_approve_idempotent_safe (Multisig.mk [1, 2, 3] 2 7 5 []) 1 [1, 2]
    (Transaction.mk 5 1 [] false 0 9 [] []) (by decide) (by decide) (by decide)
    rfl rfl

/-- C1: execute's quorum gate.  For a proposal satisfying the reachability
invariant that an executed proposal had reached quorum (which holds for
every proposal the engine itself produced: create starts with did_execute =
false, approve never sets it, execute sets it only at quorum), execute fails
with NotEnoughApprovals whenever approvals are below threshold; the dispatch
is attempted exactly when quorum is met and the proposal is not yet
executed; and once an execute succeeded, any later execute fails with
AlreadyExecuted no matter which approve calls happen in between. -/
theorem C1_execute_quorum_gate (m : Multisig) (t : Transaction) (e1 e2 : Nat)
    (d : Bool)
    (hinv : t.did_execute = true → m.threshold ≤ t.approvals.length) :
    (t.approvals.length < m.threshold →
       (execute_transaction m e1 t d).1 = .error (.program .NotEnoughApprovals)) ∧
    ((execute_transaction m e1 t d).2.2.isSome = true ↔
       (m.threshold ≤ t.approvals.length ∧ t.did_execute = false)) ∧
    ((execute_transaction m e1 t d).1 = .ok () →
       ∀ (os : List Nat) (d2 : Bool),
         (execute_transaction m e2
             (approveMany m os (execute_transaction m e1 t d).2.1) d2).1 =
           .error (.program .AlreadyExecuted)) := by
  refine ⟨?_, ?_, ?_⟩
  · intro hlt
    have hx : t.did_execute = false := by
      by_contra hx2
      have := hinv (by simpa using hx2)
      omega
    rw [exec_shape, if_neg (by simp [hx]), if_pos hlt]
  · rw [exec_shape]
    split_ifs with h1 h2 h3 <;> simp_all
  · intro hok os d2
    have hx := exec_ok_executed m e1 t d hok
    have hpres := (approveMany_frame m os (execute_transaction m e1 t d).2.1).2.2.1
    rw [exec_of_executed m e2 _ d2 (hpres.trans hx)]

/-- Witness for C1_execute_quorum_gate: two owners, threshold 2, both have
approved; a successful execute followed by an execute after one more approve
attempt, which is rejected with AlreadyExecuted. -/
theorem C1_witness :
    (execute_transaction (Multisig.mk [1, 2] 2 0 0 []) 3
        (Transaction.mk 0 1 [1, 2] false 0 9 [] []) true).1 = .ok () ∧
    (execute_transaction (Multisig.mk [1, 2] 2 0 0 []) 4
        (approveMany (Multisig.mk [1, 2] 2 0 0 []) [1]
          (execute_transaction (Multisig.mk [1, 2] 2 0 0 []) 3
            (Transaction.mk 0 1 [1, 2] false 0 9 [] []) true).2.1) false).1 =
      .error (.program .AlreadyExecuted) := by
  have h := C1_execute_quorum_gate (Multisig.mk [1, 2] 2 0 0 [])
    (Transaction.mk 0 1 [1, 2] false 0 9 [] []) 3 4 true (by decide)
  exact ⟨by decide, h.2.2 (by decide) [1] false⟩

/-- C5: the claim (and the spec's design) says a failed dispatch leaves the
proposal marked executed and permanently unexecutable, every later execute
failing with AlreadyExecuted.  The code cannot deliver this on its platform:
the Err propagated from invoke_signed (lib.rs lines 225-229) aborts the
Anchor instruction and reverts the did_execute = true write of line 202, so
the persisted proposal is unchanged.  Evaluated at a concrete
quorum-reaching proposal of a one-owner registry: the failed execute reports
dispatchFailed, the dispatch was attempted, the surviving proposal still has
did_execute = false, and a retry reaches the dispatcher again and succeeds
instead of failing with AlreadyExecuted. -/
theorem C5_dispatch_failure_reverts :
    (execute_transaction (Multisig.mk [1] 1 0 0 []) 2
        (Transaction.mk 0 1 [1] false 0 9 [] []) false).1 =
      .error .dispatchFailed ∧
    (execute_transaction (Multisig.mk [1] 1 0 0 []) 2
        (Transaction.mk 0 1 [1] false 0 9 [] []) false).2.2.isSome = true ∧
    (execute_transaction (Multisig.mk [1] 1 0 0 []) 2
        (Transaction.mk 0 1 [1] false 0 9 [] []) false).2.1 =
      Transaction.mk 0 1 [1] false 0 9 [] [] ∧
    (execute_transaction (Multisig.mk [1] 1 0 0 []) 3
        (execute_transaction (Multisig.mk [1] 1 0 0 []) 2
          (Transaction.mk 0 1 [1] false 0 9 [] []) false).2.1 true).1 =
      .ok () ∧
    (execute_transaction (Multisig.mk [1] 1 0 0 []) 3
        (execute_transaction (Multisig.mk [1] 1 0 0 []) 2
          (Transaction.mk 0 1 [1] false 0 9 [] []) false).2.1 true).1 ≠
      .error (.program .AlreadyExecuted) := by
  decide

/-- C8: payload round-trip.  A proposal created with payload P and account
list A, after any interleaving of approve calls that reaches quorum, hands
the dispatcher exactly the instruction (program_id, A mapped field-for-field
to AccountMeta, P), and a successful dispatch clears both the payload and
the account list. -/
theorem C8_payload_roundtrip (m m2 : Multisig) (p nonce pid ex : Nat)
    (A : List TransactionAccount) (P : List Nat) (t : Transaction)
    (os : List Nat)
    (hc : create_transaction m p nonce pid A P = .ok (m2, t))
    (hq : m2.threshold ≤ (approveMany m2 os t).approvals.length) :
    (execute_transaction m2 ex (approveMany m2 os t) true).2.2 =
      some { program_id := pid, accounts := A.map toAccountMeta, data := P } ∧
    (execute_transaction m2 ex (approveMany m2 os t) true).1 = .ok () ∧
    (execute_transaction m2 ex (approveMany m2 os t) true).2.1.data = [] ∧
    (execute_transaction m2 ex (approveMany m2 os t) true).2.1.accounts = [] := by
  obtain ⟨ht, _⟩ := create_ok_shape m m2 p nonce pid A P t hc
  obtain ⟨g1, g2, g3, g4, g5, g6, g7⟩ := approveMany_frame m2 os t
  have hx : (approveMany m2 os t).did_execute = false := by rw [g3, ht]
  have hacc : (approveMany m2 os t).accounts = A := by rw [g6, ht]
  have hdat : (approveMany m2 os t).data = P := by rw [g7, ht]
  have hpid : (approveMany m2 os t).program_id = pid := by rw [g5, ht]
  have hres : execute_transaction m2 ex (approveMany m2 os t) true =
      (.ok (), { approveMany m2 os t with
                   did_execute := true, accounts := [], data := [] },
        some { program_id := (approveMany m2 os t).program_id,
               accounts := (approveMany m2 os t).accounts.map toAccountMeta,
               data := (approveMany m2 os t).data }) := by
    rw [exec_shape, if_neg (by simp [hx]), if_neg (by omega), if_pos rfl]
  rw [hres]
  exact ⟨by rw [hpid, hacc, hdat], rfl, rfl, rfl⟩

/-- Witness for C8_payload_roundtrip: a one-owner registry, a proposal with
one stored account and a two-byte payload, approved by the owner, then
executed. -/
theorem C8_witness :
    (execute_transaction (Multisig.mk [1] 1 0 0 [3]) 8
        (approveMany (Multisig.mk [1] 1 0 0 [3]) [1]
          (Transaction.mk 0 1 [] false 3 9
            [TransactionAccount.mk 4 true false] [1, 2])) true).2.2 =
      some { program_id := 9,
             accounts := [TransactionAccount.mk 4 true false].map toAccountMeta,
             data := [1, 2] } ∧
    (execute_transaction (Multisig.mk [1] 1 0 0 [3]) 8
        (approveMany (Multisig.mk [1] 1 0 0 [3]) [1]
          (Transaction.mk 0 1 [] false 3 9
            [TransactionAccount.mk 4 true false] [1, 2])) true).2.1.data = [] := by
  have h := C8_payload_roundtrip (Multisig.mk [1] 1 0 0 [])
    (Multisig.mk [1] 1 0 0 [3]) 1 3 9 8 [TransactionAccount.mk 4 true false]
    [1, 2] (Transaction.mk 0 1 [] false 3 9
      [TransactionAccount.mk 4 true false] [1, 2]) [1] (by decide) (by decide)
  exact ⟨h.1, h.2.2.1⟩

/-- C9: execute has no ownership precondition on the executor.  On a
quorum-reaching, not-yet-executed proposal, for an arbitrary executor
identity the dispatch is attempted (the handler never reads the executor
except for the audit event); when the dispatch succeeds the call succeeds,
marks the proposal executed and purges payload and account list; and no
execute call on any state can fail with NotOwner or NotAnOwner. -/
theorem C9_no_executor_ownership (m : Multisig) (t : Transaction) (e : Nat)
    (d : Bool) (hq : m.threshold ≤ t.approvals.length)
    (hx : t.did_execute = false) :
    (execute_transaction m e t d).2.2 =
      some { program_id := t.program_id,
             accounts := t.accounts.map toAccountMeta, data := t.data } ∧
    (d = true →
       (execute_transaction m e t d).1 = .ok () ∧
       (execute_transaction m e t d).2.1.did_execute = true ∧
       (execute_transaction m e t d).2.1.data = [] ∧
       (execute_transaction m e t d).2.1.accounts = []) ∧
    (∀ (m2 : Multisig) (t2 : Transaction) (e2 : Nat) (d2 : Bool)
       (c : ErrorCode),
       (execute_transaction m2 e2 t2 d2).1 = .error (.program c) →
       c ≠ .NotOwner ∧ c ≠ .NotAnOwner) := by
  refine ⟨?_, ?_, ?_⟩
  · rw [exec_shape, if_neg (by simp [hx]), if_neg (by omega)]
    cases d <;> rfl
  · intro hd
    subst hd
    rw [exec_shape, if_neg (by simp [hx]), if_neg (by omega), if_pos rfl]
    exact ⟨rfl, rfl, rfl, rfl⟩
  · intro m2 t2 e2 d2 c h
    rw [exec_shape] at h
    split_ifs at h with h1 h2 h3
    · simp only [Except.error.injEq, TxError.program.injEq] at h
      subst h
      decide
    · simp only [Except.error.injEq, TxError.program.injEq] at h
      subst h
      decide
    · simp only [Except.error.injEq] at h
      exact TxError.noConfusion h

/-- Witness for C9_no_executor_ownership: executor 42 is not an owner of the
one-owner registry, yet the execute succeeds. -/
theorem C9_witness :
    (execute_transaction (Multisig.mk [1] 1 0 0 []) 42
        (Transaction.mk 0 1 [1] false 0 9 [] []) true).1 = .ok () ∧
    (execute_transaction (Multisig.mk [1] 1 0 0 []) 42
        (Transaction.mk 0 1 [1] false 0 9 [] []) true).2.2 =
      some { program_id := 9,
             accounts := ([] : List TransactionAccount).map toAccountMeta,
             data := [] } := by
  have h := C9_no_executor_ownership (Multisig.mk [1] 1 0 0 [])
    (Transaction.mk 0 1 [1] false 0 9 [] []) 42 true (by decide) (by decide)
  exact ⟨(h.2.1 rfl).1, h.1⟩

/-- A successful create_transaction changes nothing in the registry entry
except the used-nonce window: owners, threshold, creator and id are kept
(and approve/execute never return a registry at all, mirroring that they
never mutate it).  So owners and threshold are immutable after creation. -/
theorem create_registry_frame (m m2 : Multisig) (p nonce pid : Nat)
    (accs : List TransactionAccount) (dat : List Nat) (t : Transaction)
    (h : create_transaction m p nonce pid accs dat = .ok (m2, t)) :
    m2.owners = m.owners ∧ m2.threshold = m.threshold ∧
    m2.creator = m.creator ∧ m2.multisig_id = m.multisig_id := by
  obtain ⟨_, hm⟩ := create_ok_shape m m2 p nonce pid accs dat t h
  subst hm
  exact ⟨rfl, rfl, rfl, rfl⟩

/-- The invariant "an executed proposal reached quorum" (the hypothesis of
C1_execute_quorum_gate) holds of every proposal the engine itself produced:
it is true of a freshly created proposal and preserved by approve and by
execute against the same registry, whose threshold no operation changes. -/
theorem quorum_inv_maintained (m : Multisig) (t : Transaction) :
    (∀ (m2 : Multisig) (p nonce pid : Nat) (accs : List TransactionAccount)
       (dat : List Nat) (t0 : Transaction),
       create_transaction m p nonce pid accs dat = .ok (m2, t0) →
       t0.did_execute = true → m2.threshold ≤ t0.approvals.length) ∧
    ((t.did_execute = true → m.threshold ≤ t.approvals.length) →
       ∀ o, (approve_transaction m o t).2.did_execute = true →
         m.threshold ≤ (approve_transaction m o t).2.approvals.length) ∧
    ((t.did_execute = true → m.threshold ≤ t.approvals.length) →
       ∀ e d, (execute_transaction m e t d).2.1.did_execute = true →
         m.threshold ≤ (execute_transaction m e t d).2.1.approvals.length) := by
  refine ⟨?_, ?_, ?_⟩
  · intro m2 p nonce pid accs dat t0 hc hx
    obtain ⟨ht, _⟩ := create_ok_shape m m2 p nonce pid accs dat t0 hc
    rw [ht] at hx
    exact absurd hx (by simp)
  · intro hinv o
    unfold approve_transaction
    split_ifs with h1 h2 h3 <;> intro hx
    · exact hinv hx
    · exact hinv hx
    · exact hinv hx
    · have := hinv hx
      simp only [List.length_append, List.length_singleton]
      omega
  · intro hinv e d
    rw [exec_shape]
    split_ifs with h1 h2 h3 <;> intro hx
    · exact hinv hx
    · exact hinv hx
    · simpa using Nat.le_of_not_lt h2
    · simpa using Nat.le_of_not_lt h2
